import Mathlib

/-!
Verification of the rep-calculator scope/claim engine.

The data model and every operation below are shallow embeddings of the
TypeScript source: `calculateTotals`, `calculateWorkNotDoing` and
`toggleLineItem` from the review pages, the payment schedule from the
summary page, the `handleParse` validation from the upload pages, and the
JSON repair pipeline from the process-document API route.  Currency
amounts are modelled as exact rationals.
-/

namespace RepCalc

/-- A scope line item (interface `LineItem` in the review pages). -/
structure LineItem where
  id : String
  documentLineNumber : Option String := none
  quantity : String
  description : String
  rcv : ℚ
  acv : Option ℚ := none
  checked : Bool
  notes : String
deriving Repr, DecidableEq

/-- A user-added supplement (interface `SupplementItem`). -/
structure SupplementItem where
  id : String
  title : String
  quantity : String
  amount : ℚ
deriving Repr, DecidableEq

/-- A trade grouping line items and supplements (interface `Trade`). -/
structure Trade where
  id : String
  name : String
  checked : Bool
  supplements : List SupplementItem
  lineItems : List LineItem
deriving Repr, DecidableEq

/-- The record returned by `calculateTotals`.  `tradeTotals` models the
JS object keyed by trade name (lookup of the final mapping). -/
structure Totals where
  totalRcv : ℚ
  totalAcv : ℚ
  totalSupplements : ℚ
  leftoverAcv : ℚ
  tradeTotals : String → Option (ℚ × ℚ)

/-- One step of the inner `trade.lineItems.forEach` loop of
`calculateTotals`.  The accumulator is `(tradeRcv, tradeAcv, leftoverAcv)`.
The JS guard `if (item.acv)` is number truthiness: absent or zero `acv`
adds nothing. -/
def itemStep (acc : ℚ × ℚ × ℚ) (item : LineItem) : ℚ × ℚ × ℚ :=
  let (tradeRcv, tradeAcv, leftoverAcv) := acc
  if item.checked then
    match item.acv with
    | some a => if a = 0 then (tradeRcv + item.rcv, tradeAcv, leftoverAcv)
                else (tradeRcv + item.rcv, tradeAcv + a, leftoverAcv)
    | none => (tradeRcv + item.rcv, tradeAcv, leftoverAcv)
  else
    match item.acv with
    | some a => if a = 0 then (tradeRcv, tradeAcv, leftoverAcv)
                else (tradeRcv, tradeAcv, leftoverAcv + a)
    | none => (tradeRcv, tradeAcv, leftoverAcv)

/-- The supplement reduction `trade.supplements.reduce((sum, supp) => sum + supp.amount, 0)`. -/
def supplementReduce (t : Trade) : ℚ :=
  t.supplements.foldl (fun sum supp => sum + supp.amount) 0

/-- One step of the outer `trades.forEach` loop of `calculateTotals`.
The inner fold yields `(tradeRcv, tradeAcv, leftoverAcv)`; the supplement
total is then added to both per-trade figures. -/
def tradeStep (acc : Totals) (trade : Trade) : Totals :=
  let folded := trade.lineItems.foldl itemStep (0, 0, acc.leftoverAcv)
  let supplementTotal := supplementReduce trade
  let tradeRcv := folded.1 + supplementTotal
  let tradeAcv := folded.2.1 + supplementTotal
  { totalRcv := acc.totalRcv + tradeRcv
    totalAcv := acc.totalAcv + tradeAcv
    totalSupplements := acc.totalSupplements + supplementTotal
    leftoverAcv := folded.2.2
    tradeTotals := fun n =>
      if n = trade.name then some (tradeRcv, tradeAcv) else acc.tradeTotals n }

/-- Zero-initialised totals accumulator. -/
def initTotals : Totals :=
  { totalRcv := 0, totalAcv := 0, totalSupplements := 0, leftoverAcv := 0
    tradeTotals := fun _ => none }

/-- The function `calculateTotals` from the review/summary pages. -/
def calculateTotals (trades : List Trade) : Totals :=
  trades.foldl tradeStep initTotals

/-- Sum of `rcv` over the line items with `checked = true`. -/
def checkedRcvSum (items : List LineItem) : ℚ :=
  ((items.filter fun i => i.checked).map fun i => i.rcv).sum

/-- Sum of `acv` (absent treated as 0) over the items with `checked = true`. -/
def checkedAcvSum (items : List LineItem) : ℚ :=
  ((items.filter fun i => i.checked).map fun i => i.acv.getD 0).sum

/-- Sum of `acv` (absent treated as 0) over the items with `checked = false`. -/
def uncheckedAcvSum (items : List LineItem) : ℚ :=
  ((items.filter fun i => i.checked = false).map fun i => i.acv.getD 0).sum

/-- Sum of the amounts of all supplements of a trade. -/
def suppSum (t : Trade) : ℚ :=
  (t.supplements.map fun s => s.amount).sum

/-- The per-trade RCV total the engine computes for a trade. -/
def tradeRcvSpec (t : Trade) : ℚ := checkedRcvSum t.lineItems + suppSum t

/-- The per-trade ACV total the engine computes for a trade. -/
def tradeAcvSpec (t : Trade) : ℚ := checkedAcvSum t.lineItems + suppSum t

/-- The payment schedule of the summary page: `dueToday` and
`dueSub` (due on substantial completion), computed from the whole-claim
totals and the deductible. -/
def paymentSchedule (trades : List Trade) (deductible : ℚ) : ℚ × ℚ :=
  let totals := calculateTotals trades
  let dueToday :=
    if totals.totalAcv < totals.totalRcv * (1 / 2) then totals.totalAcv + deductible
    else totals.totalRcv * (1 / 2)
  let dueSub := max 0 (totals.totalAcv - dueToday)
  (dueToday, dueSub)

/-- The accumulator step for one unchecked line item inside a checked
trade in `calculateWorkNotDoing`. -/
def wndItemStep (tradeName : String) (acc : List String) (item : LineItem) : List String :=
  if item.checked = false then acc ++ [tradeName ++ ": " ++ item.description] else acc

/-- The `uncheckedItems` array built by `calculateWorkNotDoing`. -/
def workNotDoingLines (trades : List Trade) : List String :=
  trades.foldl
    (fun acc trade =>
      if trade.checked = false then acc ++ [trade.name ++ " (entire trade)"]
      else trade.lineItems.foldl (wndItemStep trade.name) acc)
    []

/-- The function `calculateWorkNotDoing` from the review pages: the unchecked-work
lines joined with newlines. -/
def calculateWorkNotDoing (trades : List Trade) : String :=
  String.intercalate "\n" (workNotDoingLines trades)

/-- The per-trade block of lines the spec describes for the
work-not-doing text. -/
def wndSpecOf (t : Trade) : List String :=
  if t.checked then
    (t.lineItems.filter fun i => i.checked = false).map
      fun i => t.name ++ ": " ++ i.description
  else [t.name ++ " (entire trade)"]

/-- The `Insurance Pays` figure displayed on the part_002 review page
(`Math.max(0, totalRcv - deductible)`). -/
def insurancePaysRepCalc (trades : List Trade) (deductible : ℚ) : ℚ :=
  max 0 ((calculateTotals trades).totalRcv - deductible)

/-- The `Insurance Will Pay` figure displayed on the scope-builder review page
(`totalRcv - deductible`, no clamping). -/
def insuranceWillPayScopeBuilder (trades : List Trade) (deductible : ℚ) : ℚ :=
  (calculateTotals trades).totalRcv - deductible

/-- The `Homeowner Pays` figure displayed on both review pages. -/
def homeownerPays (deductible : ℚ) : ℚ := deductible

/-- Per-item update inside `toggleLineItem`: flip `checked` on the item
with the matching id. -/
def toggleItemIn (itemId : String) (item : LineItem) : LineItem :=
  if item.id = itemId then { item with checked := !item.checked } else item

/-- Per-trade update inside `toggleLineItem`: on the matching trade,
toggle the item and recompute the trade flag as
`allChecked || (!noneChecked && trade.checked)`. -/
def toggleTradeIn (tradeId itemId : String) (trade : Trade) : Trade :=
  if trade.id = tradeId then
    let updatedLineItems := trade.lineItems.map (toggleItemIn itemId)
    let allChecked := updatedLineItems.all fun i => i.checked
    let noneChecked := updatedLineItems.all fun i => !i.checked
    { trade with
        lineItems := updatedLineItems
        checked := allChecked || (!noneChecked && trade.checked) }
  else trade

/-- The function `toggleLineItem` from the review pages. -/
def toggleLineItem (tradeId itemId : String) (trades : List Trade) : List Trade :=
  trades.map (toggleTradeIn tradeId itemId)

/-- Contribution of one line item to its trade's RCV total. -/
def itemRcvC (i : LineItem) : ℚ := if i.checked then i.rcv else 0

/-- Contribution of one line item to its trade's ACV total. -/
def itemAcvC (i : LineItem) : ℚ := if i.checked then i.acv.getD 0 else 0

/-- Contribution of one line item to the whole-claim leftover ACV. -/
def itemLeftC (i : LineItem) : ℚ := if i.checked then 0 else i.acv.getD 0

/-- Concrete fixture: a fully-priced checked item (RCV 1000, ACV 400). -/
def w2item : LineItem :=
  { id := "i1", quantity := "45 SQ", description := "Replace shingles"
    rcv := 1000, acv := some 400, checked := true, notes := "" }

/-- Concrete fixture trade with totals RCV 1000 / ACV 400. -/
def w2trade : Trade :=
  { id := "t1", name := "Roofing", checked := true, supplements := []
    lineItems := [w2item] }

/-- Concrete fixture: trade A, fully unchecked. -/
def tradeA : Trade :=
  { id := "tA", name := "A", checked := false, supplements := []
    lineItems := [{ id := "a1", quantity := "10 LF", description := "Gutter run"
                    rcv := 100, checked := false, notes := "" }] }

/-- Concrete fixture: trade B, checked, with one checked and one unchecked item. -/
def tradeB : Trade :=
  { id := "tB", name := "B", checked := true, supplements := []
    lineItems := [{ id := "b1", quantity := "1 EA", description := "Ridge cap"
                    rcv := 200, checked := true, notes := "" },
                  { id := "b2", quantity := "1 EA", description := "Drip edge"
                    rcv := 50, checked := false, notes := "" }] }

/-- Concrete fixture: first of two trades sharing the name Roofing. -/
def w9a : Trade :=
  { id := "t1", name := "Roofing", checked := true, supplements := []
    lineItems := [{ id := "i1", quantity := "1 EA", description := "Tear off"
                    rcv := 100, acv := some 60, checked := true, notes := "" }] }

/-- Concrete fixture: second of two trades sharing the name Roofing. -/
def w9b : Trade :=
  { id := "t2", name := "Roofing", checked := true
    supplements := [{ id := "s1", title := "Extra flashing", quantity := "1 EA"
                      amount := 25 }]
    lineItems := [{ id := "i2", quantity := "1 EA", description := "Install"
                    rcv := 200, checked := true, notes := "" }] }

/-- Concrete fixture: a checked line item for the toggle scenario. -/
def w10i1 : LineItem :=
  { id := "i1", quantity := "1 EA", description := "First", rcv := 10
    checked := true, notes := "" }

/-- Concrete fixture: an unchecked line item for the toggle scenario. -/
def w10i2 : LineItem :=
  { id := "i2", quantity := "1 EA", description := "Second", rcv := 20
    checked := false, notes := "" }

/-- Concrete fixture trade for the toggle scenario. -/
def w10t : Trade :=
  { id := "t1", name := "Roof", checked := true, supplements := []
    lineItems := [w10i1, w10i2] }

/-! ### JSON values and the upload-page validation -/

/-- Parsed JSON values (numbers as exact rationals). -/
inductive Json where
  | null
  | bool (b : Bool)
  | num (q : ℚ)
  | str (s : String)
  | arr (elements : List Json)
  | obj (members : List (String × Json))

/-- Lookup of an object member; later duplicate keys win, matching the
behaviour of `JSON.parse` followed by property access. -/
def lookupMember : List (String × Json) → String → Option Json
  | [], _ => none
  | m :: rest, k =>
    match lookupMember rest k with
    | some v => some v
    | none => if m.1 = k then some m.2 else none

/-- Property access `data.k`: `none` models JS `undefined`. -/
def jsGet : Json → String → Option Json
  | .obj members, k => lookupMember members k
  | _, _ => none

/-- JS truthiness of a JSON value. -/
def jsTruthy : Json → Bool
  | .null => false
  | .bool b => b
  | .num q => if q = 0 then false else true
  | .str s => if s = "" then false else true
  | .arr _ => true
  | .obj _ => true

/-- JS truthiness where `none` is `undefined`. -/
def jsTruthyOpt : Option Json → Bool
  | none => false
  | some v => jsTruthy v

/-- The JS test `Array.isArray(x)` on a possibly-undefined value. -/
def isArrOpt : Option Json → Bool
  | some (.arr _) => true
  | _ => false

/-- The error message thrown by `handleParse` for a bad `trades` field. -/
def invalidShapeMsg : String := "Invalid data format received. Please try again."

/-- The default claim adjuster `{ name: '', email: '' }`. -/
def emptyAdjuster : Json := .obj [("name", .str ""), ("email", .str "")]

/-- The JS expression `v || dflt` (value if truthy, default otherwise). -/
def jsOr (v : Option Json) (dflt : Json) : Json :=
  match v with
  | some x => if jsTruthy x then x else dflt
  | none => dflt

/-- The object written to session storage by `handleParse`: trades are
passed through verbatim; only the top-level metadata fields receive
defaults. -/
def storedScopeData (data : Json) : Json :=
  .obj [("trades", (jsGet data "trades").getD .null),
        ("deductible", jsOr (jsGet data "deductible") (.num 0)),
        ("claimNumber", jsOr (jsGet data "claimNumber") (.str "")),
        ("claimAdjuster", jsOr (jsGet data "claimAdjuster") emptyAdjuster)]

/-- The validation-and-store step of `handleParse` on the upload pages:
`if (!data.trades || !Array.isArray(data.trades)) throw ...` and
otherwise write the scope data to session storage. -/
def handleParse (data : Json) : Except String Json :=
  if !(jsTruthyOpt (jsGet data "trades")) || !(isArrOpt (jsGet data "trades")) then
    .error invalidShapeMsg
  else .ok (storedScopeData data)

/-- Modelled from the spec: the per-trade defaulting claimed by the
validation paragraph (`supplements: []` and `checked: false` filled in
when absent).  No function in the source performs this; the definition
follows the spec's words so the stored record can be compared against
it. -/
def applyTradeDefaultsSpec (j : Json) : Json :=
  match j with
  | .obj members =>
    let m1 :=
      if (lookupMember members "supplements").isSome then members
      else members ++ [("supplements", .arr [])]
    let m2 :=
      if (lookupMember m1 "checked").isSome then m1
      else m1 ++ [("checked", .bool false)]
    .obj m2
  | _ => j

/-- Concrete fixture: a trade object with neither `supplements` nor
`checked`. -/
def c7trade : Json := .obj [("name", .str "Roofing")]

/-- Concrete fixture: a parsed response whose only trade lacks the
optional fields. -/
def c7data : Json := .obj [("trades", .arr [c7trade])]

/-- Concrete fixture: a parsed response whose `trades` field is a
string, not an array. -/
def c4data : Json := .obj [("trades", .str "oops")]

/-! ### The process-document repair pipeline -/

/-- The double-quote character. -/
def qmark : Char := Char.ofNat 34

/-- The backtick character. -/
def btick : Char := Char.ofNat 96

/-- The opening curly brace character. -/
def lbrace : Char := Char.ofNat 123

/-- The closing curly brace character. -/
def rbrace : Char := Char.ofNat 125

/-- The sentinel `￿` used by `repairJSON`'s escape shuffle. -/
def uSentinel : Char := Char.ofNat 65535

/-- JS regex `\s` on the ASCII range. -/
def isJsWs (c : Char) : Bool :=
  c = ' ' || c = '\t' || c = '\n' || c = '\r' || c = Char.ofNat 11 || c = Char.ofNat 12

/-- JS `String.prototype.trim` (ASCII whitespace). -/
def trimChars (cs : List Char) : List Char :=
  ((cs.dropWhile isJsWs).reverse.dropWhile isJsWs).reverse

/-- The `startsWith('\x60\x60\x60')` test. -/
def startsWithTicks : List Char → Bool
  | a :: b :: c :: _ => a = btick && b = btick && c = btick
  | _ => false

/-- One `replace` of the anchored opening-fence regex: drop a leading
fence of three backticks, an optional language tag and a newline. -/
def stripOpenFence (cs : List Char) : List Char :=
  match cs with
  | a :: b :: c :: rest =>
    if a = btick && b = btick && c = btick then
      match rest.dropWhile (fun ch => ch.isAlpha) with
      | '\n' :: rest2 => rest2
      | _ => cs
    else cs
  | _ => cs

/-- One `replace` of the end-anchored closing-fence regex: drop a final
newline, three backticks and trailing whitespace. -/
def stripCloseFence (cs : List Char) : List Char :=
  match cs.reverse.dropWhile isJsWs with
  | c1 :: c2 :: c3 :: c4 :: rest =>
    if c1 = btick && c2 = btick && c3 = btick && c4 = '\n' then rest.reverse else cs
  | _ => cs

/-- The cleaning prologue of the route: trim, strip a markdown fence when
present, trim again. -/
def cleanModelOutput (result : String) : List Char :=
  let jsonString := trimChars result.data
  let jsonString :=
    if startsWithTicks jsonString then stripCloseFence (stripOpenFence jsonString)
    else jsonString
  trimChars jsonString

/-- Global scan of the trailing-comma regex: a comma, optional
whitespace and a closing brace or bracket lose the comma.  The fuel is
the input length; every step consumes at least one character. -/
def rtcAux : Nat → List Char → List Char
  | 0, cs => cs
  | _ + 1, [] => []
  | fuel + 1, c :: rest =>
    if c = ',' then
      match rest.dropWhile isJsWs with
      | d :: rest2 =>
        if d = rbrace || d = ']' then rest.takeWhile isJsWs ++ d :: rtcAux fuel rest2
        else c :: rtcAux fuel rest
      | [] => c :: rtcAux fuel rest
    else c :: rtcAux fuel rest

/-- The first `replace` of `repairJSON`. -/
def removeTrailingCommas (cs : List Char) : List Char := rtcAux cs.length cs

/-- Global replacement of the two-character sequence backslash-quote by
the sentinel (the first step of the value-escaping shuffle). -/
def replEscapedQuote : Nat → List Char → List Char
  | 0, cs => cs
  | _ + 1, [] => []
  | fuel + 1, c :: rest =>
    if c = '\\' then
      match rest with
      | d :: rest2 =>
        if d = qmark then uSentinel :: replEscapedQuote fuel rest2
        else c :: replEscapedQuote fuel rest
      | [] => [c]
    else c :: replEscapedQuote fuel rest

/-- The escaping of a matched value text inside `repairJSON`: protect
already-escaped quotes with the sentinel, escape bare quotes, restore
the sentinel as an escaped quote. -/
def escVal (v : List Char) : List Char :=
  ((replEscapedQuote v.length v).map fun c =>
    if c = qmark then ['\\', qmark]
    else if c = uSentinel then ['\\', qmark]
    else [c]).flatten

/-- Global scan of the key-value regex of `repairJSON`: a quote, a run
of non-quote key characters, a quote, optional whitespace, a colon,
optional whitespace, a quote, a run of non-quote value characters and a
quote.  Note the value group can never contain a quote.  On a match the
value is re-escaped; otherwise the scan advances one character. -/
def epAux : Nat → List Char → List Char
  | 0, cs => cs
  | _ + 1, [] => []
  | fuel + 1, c :: rest =>
    if c = qmark then
      match rest.dropWhile (fun x => x ≠ qmark) with
      | _ :: rest2 =>
        match rest2.dropWhile isJsWs with
        | ':' :: rest3 =>
          match rest3.dropWhile isJsWs with
          | q3 :: rest4 =>
            if q3 = qmark then
              match rest4.dropWhile (fun x => x ≠ qmark) with
              | _ :: rest5 =>
                qmark :: (rest.takeWhile fun x => x ≠ qmark)
                  ++ qmark :: rest2.takeWhile isJsWs
                  ++ ':' :: rest3.takeWhile isJsWs
                  ++ qmark :: escVal (rest4.takeWhile fun x => x ≠ qmark)
                  ++ qmark :: epAux fuel rest5
              | [] => c :: epAux fuel rest
            else c :: epAux fuel rest
          | _ => c :: epAux fuel rest
        | _ => c :: epAux fuel rest
      | [] => c :: epAux fuel rest
    else c :: epAux fuel rest

/-- The function `repairJSON` of the route: remove trailing commas, then
run the key-value quote-escaping scan. -/
def repairJSON (cs : List Char) : List Char :=
  epAux (removeTrailingCommas cs).length (removeTrailingCommas cs)

/-- The fallback regex of attempt 2: from the first opening brace
through the last closing brace. -/
def extractBraces (cs : List Char) : Option (List Char) :=
  match cs.dropWhile (fun c => c ≠ lbrace) with
  | [] => none
  | l =>
    match l.reverse.dropWhile (fun c => c ≠ rbrace) with
    | [] => none
    | r => some r.reverse

/-! ### A strict JSON parser modelling `JSON.parse` -/

/-- JSON insignificant whitespace. -/
def isJsonWs (c : Char) : Bool := c = ' ' || c = '\t' || c = '\n' || c = '\r'

/-- Skip insignificant whitespace. -/
def skipWsJ (cs : List Char) : List Char := cs.dropWhile isJsonWs

/-- Single-character escapes of JSON strings. -/
def escChar (c : Char) : Option Char :=
  if c = qmark then some qmark
  else if c = '\\' then some '\\'
  else if c = '/' then some '/'
  else if c = 'b' then some (Char.ofNat 8)
  else if c = 'f' then some (Char.ofNat 12)
  else if c = 'n' then some '\n'
  else if c = 'r' then some '\r'
  else if c = 't' then some '\t'
  else none

/-- Value of one hexadecimal digit (digits, then the two letter
ranges, by code point). -/
def hexDigitVal (c : Char) : Option Nat :=
  let n := c.toNat
  if 48 ≤ n ∧ n ≤ 57 then some (n - 48)
  else if 97 ≤ n ∧ n ≤ 102 then some (n - 87)
  else if 65 ≤ n ∧ n ≤ 70 then some (n - 55)
  else none

/-- Body of a JSON string after its opening quote, with an accumulator
of completed characters in reverse. -/
def jStrBody : List Char → List Char → Except String (String × List Char)
  | _, [] => .error "Unterminated string in JSON"
  | acc, '\\' :: 'u' :: a :: b :: c :: d :: rest =>
    match hexDigitVal a, hexDigitVal b, hexDigitVal c, hexDigitVal d with
    | some va, some vb, some vc, some vd =>
      jStrBody (Char.ofNat (((va * 16 + vb) * 16 + vc) * 16 + vd) :: acc) rest
    | _, _, _, _ => .error "Bad Unicode escape in JSON"
  | acc, '\\' :: e :: rest =>
    match escChar e with
    | some ch => jStrBody (ch :: acc) rest
    | none => .error "Bad escaped character in JSON"
  | acc, c :: rest =>
    if c = qmark then .ok (String.mk acc.reverse, rest)
    else if c.toNat < 32 then .error "Bad control character in JSON string"
    else jStrBody (c :: acc) rest

/-- Numeric value of a digit run. -/
def digitsToNat (ds : List Char) : Nat :=
  ds.foldl (fun total d => 10 * total + (d.toNat - 48)) 0

/-- Assemble a rational from sign, integer digits, fraction digits and a
signed decimal exponent. -/
def buildRat (neg : Bool) (intDs fracDs : List Char) (eneg : Bool) (e : Nat) : ℚ :=
  let mag : ℚ := (digitsToNat intDs : ℚ) + (digitsToNat fracDs : ℚ) / ((10 : ℚ) ^ fracDs.length)
  let scaled : ℚ := if eneg then mag / ((10 : ℚ) ^ e) else mag * ((10 : ℚ) ^ e)
  if neg then -scaled else scaled

/-- Parse an optional exponent part and finish the number. -/
def jNumExp (neg : Bool) (intDs fracDs : List Char) (cs : List Char) :
    Except String (ℚ × List Char) :=
  match cs with
  | c :: r =>
    if c = 'e' || c = 'E' then
      let (eneg, r1) :=
        match r with
        | d :: r2 => if d = '+' then (false, r2) else if d = '-' then (true, r2) else (false, r)
        | [] => (false, r)
      let expDs := r1.takeWhile Char.isDigit
      if expDs.isEmpty then .error "Expected digits in JSON exponent"
      else .ok (buildRat neg intDs fracDs eneg (digitsToNat expDs), r1.dropWhile Char.isDigit)
    else .ok (buildRat neg intDs fracDs false 0, cs)
  | [] => .ok (buildRat neg intDs fracDs false 0, cs)

/-- Parse a JSON number (strict grammar: no leading zeros, digits
required around the decimal point). -/
def jNum (cs : List Char) : Except String (ℚ × List Char) :=
  let (neg, cs1) :=
    match cs with
    | c :: r => if c = '-' then (true, r) else (false, cs)
    | [] => (false, cs)
  let intDs := cs1.takeWhile Char.isDigit
  let cs2 := cs1.dropWhile Char.isDigit
  if intDs.isEmpty then .error "Expected digits in JSON number"
  else if intDs.length > 1 && intDs.headD '1' = '0' then .error "Leading zero in JSON number"
  else
    match cs2 with
    | '.' :: r =>
      let fracDs := r.takeWhile Char.isDigit
      if fracDs.isEmpty then .error "Expected digits after decimal point"
      else jNumExp neg intDs fracDs (r.dropWhile Char.isDigit)
    | _ => jNumExp neg intDs [] cs2

mutual

/-- Parse one JSON value.  The fuel bounds recursion depth and loop
iterations; `parseJsonChars` supplies more fuel than any input can
use. -/
def jVal : Nat → List Char → Except String (Json × List Char)
  | 0, _ => .error "JSON nesting too deep"
  | fuel + 1, cs =>
    match skipWsJ cs with
    | [] => .error "Unexpected end of JSON input"
    | 't' :: 'r' :: 'u' :: 'e' :: rest => .ok (.bool true, rest)
    | 'f' :: 'a' :: 'l' :: 's' :: 'e' :: rest => .ok (.bool false, rest)
    | 'n' :: 'u' :: 'l' :: 'l' :: rest => .ok (.null, rest)
    | c :: rest =>
      if c = qmark then
        match jStrBody [] rest with
        | .ok (s, rest2) => .ok (.str s, rest2)
        | .error e => .error e
      else if c = lbrace then
        match skipWsJ rest with
        | d :: rest2 =>
          if d = rbrace then .ok (.obj [], rest2)
          else jMembers fuel (d :: rest2) []
        | [] => .error "Unexpected end of JSON input"
      else if c = '[' then
        match skipWsJ rest with
        | d :: rest2 =>
          if d = ']' then .ok (.arr [], rest2)
          else jElems fuel (d :: rest2) []
        | [] => .error "Unexpected end of JSON input"
      else if c = '-' || c.isDigit then
        match jNum (c :: rest) with
        | .ok (q, rest2) => .ok (.num q, rest2)
        | .error e => .error e
      else .error "Unexpected token in JSON"

/-- Parse the members of an object after its opening brace. -/
def jMembers : Nat → List Char → List (String × Json) →
    Except String (Json × List Char)
  | 0, _, _ => .error "JSON nesting too deep"
  | fuel + 1, cs, acc =>
    match skipWsJ cs with
    | c :: rest =>
      if c = qmark then
        match jStrBody [] rest with
        | .ok (key, rest2) =>
          match skipWsJ rest2 with
          | ':' :: rest3 =>
            match jVal fuel rest3 with
            | .ok (v, rest4) =>
              match skipWsJ rest4 with
              | ',' :: rest5 => jMembers fuel rest5 (acc ++ [(key, v)])
              | d :: rest5 =>
                if d = rbrace then .ok (.obj (acc ++ [(key, v)]), rest5)
                else .error "Expected comma or closing brace in JSON object"
              | [] => .error "Unexpected end of JSON input"
            | .error e => .error e
          | _ => .error "Expected colon in JSON object"
        | .error e => .error e
      else .error "Expected string key in JSON object"
    | [] => .error "Unexpected end of JSON input"

/-- Parse the elements of an array after its opening bracket. -/
def jElems : Nat → List Char → List Json → Except String (Json × List Char)
  | 0, _, _ => .error "JSON nesting too deep"
  | fuel + 1, cs, acc =>
    match jVal fuel cs with
    | .ok (v, rest) =>
      match skipWsJ rest with
      | ',' :: rest2 => jElems fuel rest2 (acc ++ [v])
      | d :: rest2 =>
        if d = ']' then .ok (.arr (acc ++ [v]), rest2)
        else .error "Expected comma or closing bracket in JSON array"
      | [] => .error "Unexpected end of JSON input"
    | .error e => .error e

end

/-- The model of `JSON.parse`: one value, then only whitespace. -/
def parseJsonChars (cs : List Char) : Except String Json :=
  match jVal (cs.length + 16) cs with
  | .ok (v, rest) =>
    match skipWsJ rest with
    | [] => .ok v
    | _ => .error "Unexpected non-whitespace character after JSON data"
  | .error e => .error e

/-- The whole repair pipeline of the process-document route: clean the
model output, repair and parse, and on failure retry on the
first-brace-to-last-brace substring. -/
def processDocumentResponse (result : String) : Except String Json :=
  let jsonString := cleanModelOutput result
  match parseJsonChars (repairJSON jsonString) with
  | .ok v => .ok v
  | .error _ =>
    match extractBraces jsonString with
    | some sub =>
      match parseJsonChars (repairJSON sub) with
      | .ok v => .ok v
      | .error e =>
        .error ("Failed to parse JSON response after multiple attempts: " ++ e)
    | none =>
      .error ("Failed to parse JSON response after multiple attempts: " ++
        "No JSON object found in response")

/-- Test for a successful parse result. -/
def isOkE (e : Except String Json) : Bool :=
  match e with
  | .ok _ => true
  | .error _ => false

/-- Concrete fixture for C3: a ClaimRecord-shaped response wrapped in a
markdown fence, with a trailing comma before the trade object's closing
brace and one embedded unescaped quote inside the description value. -/
def c3raw : String :=
  "```json\n\x7b\n \"trades\": [\n  \x7b\n   \"id\": \"t1\",\n   \"name\": \"Roofing\",\n   \"checked\": false,\n   \"supplements\": [],\n   \"lineItems\": [\n    \x7b\n     \"id\": \"i1\",\n     \"quantity\": \"1 EA\",\n     \"description\": \"Install 5\" drip edge\",\n     \"rcv\": 100,\n     \"checked\": false,\n     \"notes\": \"\"\n    \x7d\n   ],\n  \x7d\n ]\n\x7d\n```"

/-- Concrete fixture: the same response without the embedded quote (the
fence and the trailing comma remain). -/
def c3good : String :=
  "```json\n\x7b\n \"trades\": [\n  \x7b\n   \"id\": \"t1\",\n   \"name\": \"Roofing\",\n   \"checked\": false,\n   \"supplements\": [],\n   \"lineItems\": [\n    \x7b\n     \"id\": \"i1\",\n     \"quantity\": \"1 EA\",\n     \"description\": \"Install drip edge\",\n     \"rcv\": 100,\n     \"checked\": false,\n     \"notes\": \"\"\n    \x7d\n   ],\n  \x7d\n ]\n\x7d\n```"

/-! ### Helper lemmas about the aggregation fold -/

theorem itemStep_eq (acc : ℚ × ℚ × ℚ) (i : LineItem) :
    itemStep acc i = (acc.1 + itemRcvC i, acc.2.1 + itemAcvC i, acc.2.2 + itemLeftC i) := by
  obtain ⟨r, a, l⟩ := acc
  unfold itemStep itemRcvC itemAcvC itemLeftC
  cases hc : i.checked <;> rcases ha : i.acv with _ | v <;> simp [hc, ha]

theorem checkedRcvSum_cons (i : LineItem) (tl : List LineItem) :
    checkedRcvSum (i :: tl) = itemRcvC i + checkedRcvSum tl := by
  cases hc : i.checked <;> simp [checkedRcvSum, itemRcvC, hc, List.filter_cons]

theorem checkedAcvSum_cons (i : LineItem) (tl : List LineItem) :
    checkedAcvSum (i :: tl) = itemAcvC i + checkedAcvSum tl := by
  cases hc : i.checked <;> simp [checkedAcvSum, itemAcvC, hc, List.filter_cons]

theorem uncheckedAcvSum_cons (i : LineItem) (tl : List LineItem) :
    uncheckedAcvSum (i :: tl) = itemLeftC i + uncheckedAcvSum tl := by
  cases hc : i.checked <;> simp [uncheckedAcvSum, itemLeftC, hc, List.filter_cons]

theorem foldl_itemStep (items : List LineItem) :
    ∀ r a l : ℚ, items.foldl itemStep (r, a, l) =
      (r + checkedRcvSum items, a + checkedAcvSum items, l + uncheckedAcvSum items) := by
  induction items with
  | nil => intro r a l; simp [checkedRcvSum, checkedAcvSum, uncheckedAcvSum]
  | cons hd tl ih =>
    intro r a l
    rw [List.foldl_cons, itemStep_eq, ih, checkedRcvSum_cons, checkedAcvSum_cons,
      uncheckedAcvSum_cons]
    simp only [Prod.mk.injEq]
    refine ⟨by ring, by ring, by ring⟩

theorem supplementReduce_eq (t : Trade) : supplementReduce t = suppSum t := by
  unfold supplementReduce suppSum
  have h : ∀ (l : List SupplementItem) (init : ℚ),
      l.foldl (fun sum supp => sum + supp.amount) init
        = init + (l.map fun s => s.amount).sum := by
    intro l
    induction l with
    | nil => intro init; simp
    | cons hd tl ih => intro init; rw [List.foldl_cons, ih]; simp; ring
  rw [h]; simp

theorem tradeStep_eq (acc : Totals) (t : Trade) :
    tradeStep acc t =
      { totalRcv := acc.totalRcv + tradeRcvSpec t
        totalAcv := acc.totalAcv + tradeAcvSpec t
        totalSupplements := acc.totalSupplements + suppSum t
        leftoverAcv := acc.leftoverAcv + uncheckedAcvSum t.lineItems
        tradeTotals := fun n =>
          if n = t.name then some (tradeRcvSpec t, tradeAcvSpec t)
          else acc.tradeTotals n } := by
  unfold tradeStep tradeRcvSpec tradeAcvSpec
  rw [foldl_itemStep, supplementReduce_eq]
  simp

theorem foldl_tradeStep_fields (ts : List Trade) :
    ∀ acc : Totals,
      (ts.foldl tradeStep acc).totalRcv = acc.totalRcv + (ts.map tradeRcvSpec).sum
      ∧ (ts.foldl tradeStep acc).totalAcv = acc.totalAcv + (ts.map tradeAcvSpec).sum
      ∧ (ts.foldl tradeStep acc).totalSupplements
          = acc.totalSupplements + (ts.map suppSum).sum
      ∧ (ts.foldl tradeStep acc).leftoverAcv
          = acc.leftoverAcv + (ts.map fun t => uncheckedAcvSum t.lineItems).sum := by
  induction ts with
  | nil => intro acc; simp
  | cons hd tl ih =>
    intro acc
    rw [List.foldl_cons, tradeStep_eq]
    obtain ⟨h1, h2, h3, h4⟩ := ih _
    refine ⟨?_, ?_, ?_, ?_⟩
    · rw [h1]; simp; ring
    · rw [h2]; simp; ring
    · rw [h3]; simp; ring
    · rw [h4]; simp; ring

theorem foldl_tradeStep_lookup_none (ts : List Trade) (n : String) :
    ∀ acc : Totals, (∀ u ∈ ts, u.name ≠ n) →
      (ts.foldl tradeStep acc).tradeTotals n = acc.tradeTotals n := by
  induction ts with
  | nil => intro acc _; rfl
  | cons hd tl ih =>
    intro acc h
    rw [List.foldl_cons, tradeStep_eq,
      ih _ (fun u hu => h u (List.mem_cons_of_mem _ hu))]
    have hhd : hd.name ≠ n := h hd (List.mem_cons_self _ _)
    simp [Ne.symm hhd]

/-! ### Helper lemmas about the work-not-doing fold -/

theorem wnd_item_foldl (tradeName : String) (items : List LineItem) :
    ∀ acc : List String,
      items.foldl (wndItemStep tradeName) acc
        = acc ++ (items.filter fun i => i.checked = false).map
            (fun i => tradeName ++ ": " ++ i.description) := by
  induction items with
  | nil => intro acc; simp
  | cons hd tl ih =>
    intro acc
    rw [List.foldl_cons]
    cases hc : hd.checked <;>
      simp [wndItemStep, hc, ih, List.filter_cons]

theorem wnd_foldl (ts : List Trade) :
    ∀ acc : List String,
      ts.foldl
        (fun acc trade =>
          if trade.checked = false then acc ++ [trade.name ++ " (entire trade)"]
          else trade.lineItems.foldl (wndItemStep trade.name) acc) acc
        = acc ++ (ts.map wndSpecOf).flatten := by
  induction ts with
  | nil => intro acc; simp
  | cons hd tl ih =>
    intro acc
    simp only [List.foldl_cons]
    have hstep : (if hd.checked = false then acc ++ [hd.name ++ " (entire trade)"]
        else hd.lineItems.foldl (wndItemStep hd.name) acc) = acc ++ wndSpecOf hd := by
      cases hc : hd.checked <;> simp [wndSpecOf, hc, wnd_item_foldl]
    rw [hstep, ih]
    simp [List.append_assoc]

/-! ### Claim theorems -/

/-- C1: for every trade, the aggregation engine computes the per-trade RCV
as the sum of `rcv` over exactly the checked line items plus the sum of
`amount` over all supplements, and the per-trade ACV as the sum of `acv`
(absent treated as 0) over the checked line items plus that same
supplement sum; the supplement sum enters both figures identically. -/
theorem tradeTotals_formula (trades : List Trade) (acc : Totals) (t : Trade) :
    calculateTotals trades = trades.foldl tradeStep initTotals
    ∧ (tradeStep acc t).tradeTotals t.name = some (tradeRcvSpec t, tradeAcvSpec t)
    ∧ tradeRcvSpec t
        = ((t.lineItems.filter fun i => i.checked).map fun i => i.rcv).sum
          + (t.supplements.map fun s => s.amount).sum
    ∧ tradeAcvSpec t
        = ((t.lineItems.filter fun i => i.checked).map fun i => i.acv.getD 0).sum
          + (t.supplements.map fun s => s.amount).sum := by
  refine ⟨rfl, ?_, rfl, rfl⟩
  rw [tradeStep_eq]
  simp

/-- C2: with a non-negative deductible, the summary page's payment
schedule satisfies: if `totalAcv < totalRcv * 0.5` then
`dueToday = totalAcv + deductible` and the completion balance is 0;
otherwise `dueToday = totalRcv * 0.5`; and in all cases
`dueOnCompletion = max 0 (totalAcv - dueToday)`. -/
theorem paymentSchedule_formula (trades : List Trade) (d : ℚ) (hd : 0 ≤ d) :
    ((calculateTotals trades).totalAcv < (calculateTotals trades).totalRcv * (1 / 2) →
        (paymentSchedule trades d).1 = (calculateTotals trades).totalAcv + d
        ∧ (paymentSchedule trades d).2 = 0)
    ∧ (¬ (calculateTotals trades).totalAcv < (calculateTotals trades).totalRcv * (1 / 2) →
        (paymentSchedule trades d).1 = (calculateTotals trades).totalRcv * (1 / 2))
    ∧ (paymentSchedule trades d).2
        = max 0 ((calculateTotals trades).totalAcv - (paymentSchedule trades d).1) := by
  have h1 : (paymentSchedule trades d).1
      = if (calculateTotals trades).totalAcv
            < (calculateTotals trades).totalRcv * (1 / 2)
        then (calculateTotals trades).totalAcv + d
        else (calculateTotals trades).totalRcv * (1 / 2) := rfl
  have h2 : (paymentSchedule trades d).2
      = max 0 ((calculateTotals trades).totalAcv - (paymentSchedule trades d).1) := rfl
  refine ⟨fun hlt => ⟨?_, ?_⟩, fun hge => ?_, h2⟩
  · rw [h1, if_pos hlt]
  · rw [h2, h1, if_pos hlt]
    have hle : (calculateTotals trades).totalAcv
        - ((calculateTotals trades).totalAcv + d) ≤ 0 := by linarith
    exact max_eq_left hle
  · rw [h1, if_neg hge]

/-- C2 witness: a concrete record with `totalRcv = 1000`, `totalAcv = 400`
and deductible 50 exercises the first branch. -/
theorem paymentSchedule_formula_witness :
    (0 : ℚ) ≤ 50
    ∧ (paymentSchedule [w2trade] 50).2
        = max 0 ((calculateTotals [w2trade]).totalAcv - (paymentSchedule [w2trade] 50).1) :=
  ⟨by norm_num, (paymentSchedule_formula [w2trade] 50 (by norm_num)).2.2⟩

/-- C5: `calculateWorkNotDoing` emits, in trade order, one line
`<name> (entire trade)` for each trade whose checked flag is off (the
trade excluded as a whole), and for each checked trade one line
`<name>: <description>` per unchecked line item; in particular the
two-trade scenario yields exactly the two expected lines. -/
theorem workNotDoing_formula :
    (∀ trades : List Trade,
        workNotDoingLines trades = (trades.map wndSpecOf).flatten)
    ∧ workNotDoingLines [tradeA, tradeB] = ["A (entire trade)", "B: Drip edge"]
    ∧ calculateWorkNotDoing [tradeA, tradeB] = "A (entire trade)\nB: Drip edge" := by
  refine ⟨fun trades => ?_, by decide, by decide⟩
  unfold workNotDoingLines
  rw [wnd_foldl]
  simp

/-- C6: `leftoverAcv` is the sum of `acv` (where present) over all
unchecked line items across all trades, and every output of
`calculateTotals` is unchanged when the trades' own `checked` flags are
replaced arbitrarily: monetary inclusion depends only on each line
item's flag. -/
theorem leftover_and_tradeFlag_independence (trades : List Trade) :
    (calculateTotals trades).leftoverAcv
      = (trades.map fun t => uncheckedAcvSum t.lineItems).sum
    ∧ ∀ f : Trade → Bool,
        calculateTotals (trades.map fun t => { t with checked := f t })
          = calculateTotals trades := by
  constructor
  · have h := (foldl_tradeStep_fields trades initTotals).2.2.2
    rw [calculateTotals, h]
    simp [initTotals]
  · intro f
    unfold calculateTotals
    rw [List.foldl_map]
    have hfun : (fun (acc : Totals) (t : Trade) =>
        tradeStep acc { t with checked := f t }) = tradeStep := by
      funext acc t
      rfl
    rw [hfun]

/-- C8 counterexample: on the scope-builder review page the displayed
`Insurance Will Pay` is `totalRcv - deductible` without clamping, so with
an empty scope and deductible 100 it shows -100, not
`max 0 (totalRcv - deductible) = 0`. -/
theorem scopeBuilder_display_unclamped :
    insuranceWillPayScopeBuilder [] 100 = -100
    ∧ insurancePaysRepCalc [] 100 = 0
    ∧ insuranceWillPayScopeBuilder [] 100
        ≠ max 0 ((calculateTotals []).totalRcv - 100) := by
  have h0 : (calculateTotals []).totalRcv = 0 := rfl
  refine ⟨?_, ?_, ?_⟩ <;>
    simp [insuranceWillPayScopeBuilder, insurancePaysRepCalc, h0]

/-- C8 amended: the part_002 review page displays
`insurancePays = max 0 (totalRcv - deductible)` (clamped, hence
non-negative), while the scope-builder review page displays the
unclamped `totalRcv - deductible`; both display
`homeownerPays = deductible`, and the two displays agree whenever the
deductible does not exceed `totalRcv`. -/
theorem insurance_pays_displays (trades : List Trade) (d : ℚ) :
    insurancePaysRepCalc trades d = max 0 ((calculateTotals trades).totalRcv - d)
    ∧ insuranceWillPayScopeBuilder trades d = (calculateTotals trades).totalRcv - d
    ∧ homeownerPays d = d
    ∧ 0 ≤ insurancePaysRepCalc trades d
    ∧ (d ≤ (calculateTotals trades).totalRcv →
        insuranceWillPayScopeBuilder trades d = insurancePaysRepCalc trades d) := by
  refine ⟨rfl, rfl, rfl, le_max_left 0 _, fun h => ?_⟩
  unfold insuranceWillPayScopeBuilder insurancePaysRepCalc
  rw [max_eq_right (by linarith)]

/-- C8 witness: with the concrete record of RCV 1000 and deductible 100
the two displays agree. -/
theorem insurance_pays_displays_witness :
    (100 : ℚ) ≤ (calculateTotals [w2trade]).totalRcv
    ∧ insuranceWillPayScopeBuilder [w2trade] 100 = insurancePaysRepCalc [w2trade] 100 := by
  have hrcv : (100 : ℚ) ≤ (calculateTotals [w2trade]).totalRcv := by
    simp [calculateTotals, tradeStep_eq, initTotals, tradeRcvSpec, checkedRcvSum,
      suppSum, w2trade, w2item]
    norm_num
  exact ⟨hrcv, (insurance_pays_displays [w2trade] 100).2.2.2.2 hrcv⟩

/-- C9: when a claim contains two trades with the same name, the
name-keyed lookup table maps that name to the totals of the later trade
only (overwritten, not summed), while `totalRcv` and `totalAcv` still
include every trade's line items and supplements. -/
theorem tradeTotals_name_collision (pre : List Trade) (t : Trade) (post : List Trade)
    (hdup : ∃ u ∈ pre, u.name = t.name)
    (hpost : ∀ u ∈ post, u.name ≠ t.name) :
    (calculateTotals (pre ++ t :: post)).tradeTotals t.name
        = some (tradeRcvSpec t, tradeAcvSpec t)
    ∧ (calculateTotals (pre ++ t :: post)).totalRcv
        = ((pre ++ t :: post).map tradeRcvSpec).sum
    ∧ (calculateTotals (pre ++ t :: post)).totalAcv
        = ((pre ++ t :: post).map tradeAcvSpec).sum := by
  refine ⟨?_, ?_, ?_⟩
  · unfold calculateTotals
    rw [List.foldl_append, List.foldl_cons,
      foldl_tradeStep_lookup_none post t.name _ hpost, tradeStep_eq]
    simp
  · rw [calculateTotals, (foldl_tradeStep_fields _ initTotals).1]
    simp [initTotals]
  · rw [calculateTotals, (foldl_tradeStep_fields _ initTotals).2.1]
    simp [initTotals]

/-- C9 witness: two concrete trades both named Roofing; the lookup holds
only the second trade's totals (225, 25) while `totalRcv` counts both
(100 + 225). -/
theorem tradeTotals_name_collision_witness :
    (calculateTotals [w9a, w9b]).tradeTotals "Roofing" = some (225, 25)
    ∧ (calculateTotals [w9a, w9b]).totalRcv = 325 := by
  have h := tradeTotals_name_collision [w9a] w9b []
    ⟨w9a, List.mem_cons_self w9a [], rfl⟩ (by simp)
  constructor
  · refine h.1.trans ?_
    simp [tradeRcvSpec, tradeAcvSpec, checkedRcvSum, checkedAcvSum, suppSum, w9b]
    norm_num
  · refine h.2.1.trans ?_
    simp [tradeRcvSpec, checkedRcvSum, suppSum, w9a, w9b]
    norm_num

/-- C10: toggling one line item flips exactly that item's checked flag,
leaves every other trade and every other field untouched, and recomputes
the toggled trade's flag as: true when all items end up checked, false
when none do, and the previous flag otherwise. -/
theorem toggleLineItem_behavior (trades : List Trade) (tradeId itemId : String)
    (t : Trade) (hid : t.id = tradeId)
    (hmem : ∃ i ∈ t.lineItems, i.id = itemId) :
    toggleLineItem tradeId itemId trades = trades.map (toggleTradeIn tradeId itemId)
    ∧ (∀ u : Trade, u.id ≠ tradeId → toggleTradeIn tradeId itemId u = u)
    ∧ (∀ i : LineItem, i.id ≠ itemId → toggleItemIn itemId i = i)
    ∧ (∀ i : LineItem, i.id = itemId →
        toggleItemIn itemId i = { i with checked := !i.checked })
    ∧ (toggleTradeIn tradeId itemId t).id = t.id
    ∧ (toggleTradeIn tradeId itemId t).name = t.name
    ∧ (toggleTradeIn tradeId itemId t).supplements = t.supplements
    ∧ (toggleTradeIn tradeId itemId t).lineItems
        = t.lineItems.map (toggleItemIn itemId)
    ∧ ((t.lineItems.map (toggleItemIn itemId)).all (fun i => i.checked) = true →
        (toggleTradeIn tradeId itemId t).checked = true)
    ∧ ((t.lineItems.map (toggleItemIn itemId)).all (fun i => !i.checked) = true →
        (toggleTradeIn tradeId itemId t).checked = false)
    ∧ ((t.lineItems.map (toggleItemIn itemId)).all (fun i => i.checked) = false →
        (t.lineItems.map (toggleItemIn itemId)).all (fun i => !i.checked) = false →
        (toggleTradeIn tradeId itemId t).checked = t.checked) := by
  refine ⟨rfl, ?_, ?_, ?_, ?_, ?_, ?_, ?_, ?_, ?_, ?_⟩
  · intro u hu; simp [toggleTradeIn, hu]
  · intro i hi; simp [toggleItemIn, hi]
  · intro i hi; simp [toggleItemIn, hi]
  · simp [toggleTradeIn, hid]
  · simp [toggleTradeIn, hid]
  · simp [toggleTradeIn, hid]
  · simp [toggleTradeIn, hid]
  · intro hall
    simp [toggleTradeIn, hid, hall]
  · intro hnone
    have hall : (t.lineItems.map (toggleItemIn itemId)).all (fun i => i.checked) = false := by
      obtain ⟨i, hi, _⟩ := hmem
      rcases hb : (t.lineItems.map (toggleItemIn itemId)).all (fun i => i.checked) with _ | _
      · rfl
      · exfalso
        rw [List.all_eq_true] at hb hnone
        have h1 := hb _ (List.mem_map_of_mem (toggleItemIn itemId) hi)
        have h2 := hnone _ (List.mem_map_of_mem (toggleItemIn itemId) hi)
        simp at h1 h2
        rw [h1] at h2
        cases h2
    simp [toggleTradeIn, hid, hall, hnone]
  · intro hall hnone
    simp [toggleTradeIn, hid, hall, hnone]

set_option maxRecDepth 10000 in
/-- C3 (code-bug evidence): on a fenced ClaimRecord-shaped response with
a trailing comma before a closing brace and one embedded unescaped quote
inside the description value, `repairJSON` removes the trailing comma
but leaves the embedded quote unescaped (the value group of its regex
can never contain a quote), so both parse attempts fail and the pipeline
reports an error instead of the repaired record; the same response
without the embedded quote parses, so the fence stripping and the
trailing-comma repair themselves do work. -/
theorem repair_pipeline_embedded_quote_failure :
    parseJsonChars (repairJSON (cleanModelOutput c3raw))
        = .error "Expected comma or closing brace in JSON object"
    ∧ processDocumentResponse c3raw
        = .error ("Failed to parse JSON response after multiple attempts: "
            ++ "Expected comma or closing brace in JSON object")
    ∧ isOkE (processDocumentResponse c3good) = true :=
  ⟨rfl, rfl, rfl⟩

/-- C4: any parsed response without a `trades` member, or whose `trades`
member is anything but an array, is rejected by `handleParse` with the
invalid-shape error, and nothing is stored for the aggregation engine. -/
theorem handleParse_rejects_bad_trades (data : Json)
    (h : ∀ ts : List Json, jsGet data "trades" ≠ some (.arr ts)) :
    handleParse data = .error invalidShapeMsg := by
  unfold handleParse
  rcases hg : jsGet data "trades" with _ | v
  · simp [jsTruthyOpt]
  · cases v with
    | arr xs => exact absurd hg (h xs)
    | null => simp [jsTruthyOpt, jsTruthy, isArrOpt]
    | bool b => simp [isArrOpt]
    | num q => simp [isArrOpt]
    | str s => simp [isArrOpt]
    | obj ms => simp [isArrOpt]

/-- C4 witness: a response whose `trades` field is a string is
rejected. -/
theorem handleParse_rejects_bad_trades_witness :
    handleParse c4data = .error invalidShapeMsg :=
  handleParse_rejects_bad_trades c4data
    (by intro ts h; simp [c4data, jsGet, lookupMember] at h)

/-- C7 counterexample: a successfully validated response whose only
trade lacks `supplements` and `checked` is stored verbatim: the stored
trade still has neither member, and differs from the spec's defaulted
shape. -/
theorem trades_defaults_counterexample :
    handleParse c7data = .ok (storedScopeData c7data)
    ∧ jsGet (storedScopeData c7data) "trades" = some (.arr [c7trade])
    ∧ jsGet c7trade "checked" = none
    ∧ jsGet c7trade "supplements" = none
    ∧ applyTradeDefaultsSpec c7trade ≠ c7trade := by
  refine ⟨rfl, rfl, rfl, rfl, ?_⟩
  intro h
  simp [applyTradeDefaultsSpec, lookupMember, c7trade] at h

/-- C7 amended: after a successful validation the trades of the parsed
response are stored verbatim (no per-trade defaulting); only top-level
metadata receives defaults. -/
theorem handleParse_stores_trades_verbatim (data : Json) (ts : List Json)
    (h : jsGet data "trades" = some (.arr ts)) :
    handleParse data = .ok (storedScopeData data)
    ∧ jsGet (storedScopeData data) "trades" = some (.arr ts) := by
  constructor
  · unfold handleParse
    rw [h]
    simp [jsTruthyOpt, jsTruthy, isArrOpt]
  · unfold storedScopeData
    rw [h]
    simp [jsGet, lookupMember]

/-- C7 amended witness: the concrete defaults-free trade is stored
verbatim. -/
theorem handleParse_stores_trades_verbatim_witness :
    jsGet (storedScopeData c7data) "trades" = some (.arr [c7trade]) :=
  (handleParse_stores_trades_verbatim c7data [c7trade] rfl).2

/-- C10 witness: toggling the only checked item of the concrete trade
leaves no checked items, so the trade's flag drops to false. -/
theorem toggleLineItem_behavior_witness :
    (toggleTradeIn "t1" "i1" w10t).checked = false := by
  have h := toggleLineItem_behavior [w10t] "t1" "i1" w10t rfl
    ⟨w10i1, List.mem_cons_self w10i1 [w10i2], rfl⟩
  obtain ⟨-, -, -, -, -, -, -, -, -, h10, -⟩ := h
  exact h10 (by decide)

end RepCalc
